import Mathlib

/-!
Verification development for the Browser4Zero agent (src/agent.py).

The Python code is shallowly embedded: JSON-like Python values become the
inductive `PyVal`, Python exceptions become the inductive `PyErr`, fallible
code returns `Except PyErr`, and the browser, page-analysis script and
language model are modelled as environments of outcomes supplied to each
operation.  Machine-level details that cannot influence the verified
properties are modelled as follows and noted where they occur:
MD5 digests are modelled as an injective encoding of the digested fields,
exception texts are modelled without the quote characters CPython inserts,
and JSON numbers are modelled as integers (no reply analysed here carries a
fractional literal).
-/

namespace Browser4Zero

/-- Python values as they occur in the agent: the payloads of `json.loads`,
the element dictionaries cached from the page helper, and action fields. -/
inductive PyVal where
  | none
  | bool (b : Bool)
  | int (n : Int)
  | str (s : String)
  | list (xs : List PyVal)
  | dict (kvs : List (String × PyVal))
deriving Repr, Inhabited

/-- Python exceptions raised by the embedded code or by collaborators. -/
inductive PyErr where
  | playwrightTimeout
  | typeError (msg : String)
  | valueError (msg : String)
  | jsonDecodeError (msg : String)
  | attributeError (msg : String)
  | unboundLocal (name : String)
  | exn (msg : String)
deriving Repr, DecidableEq, Inhabited

/-- str(e) for a modelled exception (CPython renders the message text). -/
def errStr : PyErr → String
  | .playwrightTimeout => "Timeout"
  | .typeError m => m
  | .valueError m => m
  | .jsonDecodeError m => m
  | .attributeError m => m
  | .unboundLocal n => "local variable " ++ n ++ " referenced before assignment"
  | .exn m => m

/-- Python type name, as used in TypeError texts. -/
def pyTypeName : PyVal → String
  | .none => "NoneType"
  | .bool _ => "bool"
  | .int _ => "int"
  | .str _ => "str"
  | .list _ => "list"
  | .dict _ => "dict"

/-- Python s[:n] on a string, by code points (as Python slices). -/
def strTake (s : String) (n : Nat) : String := String.mk (s.toList.take n)

mutual
/-- Python equality (==) on the modelled values; bool and int compare
numerically as in Python.  Dict equality is modelled order-sensitively,
which agrees with Python on the dictionaries compared here. -/
def pyBeq : PyVal → PyVal → Bool
  | .none, .none => true
  | .bool a, .bool b => a == b
  | .bool a, .int b => (if a then (1 : Int) else 0) == b
  | .int a, .bool b => a == (if b then (1 : Int) else 0)
  | .int a, .int b => a == b
  | .str a, .str b => a == b
  | .list a, .list b => pyBeqL a b
  | .dict a, .dict b => pyBeqD a b
  | _, _ => false

def pyBeqL : List PyVal → List PyVal → Bool
  | [], [] => true
  | a :: as, b :: bs => pyBeq a b && pyBeqL as bs
  | _, _ => false

def pyBeqD : List (String × PyVal) → List (String × PyVal) → Bool
  | [], [] => true
  | (k, v) :: as, (l, w) :: bs => k == l && pyBeq v w && pyBeqD as bs
  | _, _ => false
end

/-- Python truthiness. -/
def pyTruthy : PyVal → Bool
  | .none => false
  | .bool b => b
  | .int n => n != 0
  | .str s => s.length != 0
  | .list xs => xs.length != 0
  | .dict kvs => kvs.length != 0

/-- f-string rendering of a value (str(v)); containers are rendered only
by their type name, which no verified property depends on. -/
def pyStrOf : PyVal → String
  | .none => "None"
  | .bool b => if b then "True" else "False"
  | .int n => toString n
  | .str s => s
  | .list _ => "list"
  | .dict _ => "dict"

/-- Numeric view shared by int and bool (Python bool is an int subtype). -/
def pyToNum : PyVal → Option Int
  | .int n => some n
  | .bool b => some (if b then 1 else 0)
  | _ => Option.none

/-- The TypeError text of an unsupported comparison. -/
def cmpErrMsg (opSym : String) (a b : PyVal) : String :=
  opSym ++ " not supported between instances of " ++ pyTypeName a ++ " and " ++ pyTypeName b

/-- Python a < b restricted to the numeric cases the agent exercises;
any other operand combination raises TypeError as in Python. -/
def pyLt (a b : PyVal) : Except PyErr Bool :=
  match pyToNum a, pyToNum b with
  | some x, some y => .ok (decide (x < y))
  | _, _ => .error (.typeError (cmpErrMsg "<" a b))

/-- Python a > b, same operand discipline as `pyLt`. -/
def pyGt (a b : PyVal) : Except PyErr Bool :=
  match pyToNum a, pyToNum b with
  | some x, some y => .ok (decide (x > y))
  | _, _ => .error (.typeError (cmpErrMsg ">" a b))

/-- Python min(v, k) with an int second argument: returns k when k < v. -/
def pyMin (v : PyVal) (k : Int) : Except PyErr PyVal :=
  match pyToNum v with
  | some n => .ok (if n ≤ k then v else .int k)
  | _ => .error (.typeError
      ("< not supported between instances of int and " ++ pyTypeName v))

/-- Python unary minus. -/
def pyNeg (v : PyVal) : Except PyErr PyVal :=
  match v with
  | .int n => .ok (.int (-n))
  | .bool b => .ok (.int (if b then -1 else 0))
  | _ => .error (.typeError ("bad operand type for unary -: " ++ pyTypeName v))

/-- Python v[:n] slicing as the agent uses it (strings and lists). -/
def pySlice (v : PyVal) (n : Nat) : Except PyErr PyVal :=
  match v with
  | .str s => .ok (.str (strTake s n))
  | .list xs => .ok (.list (xs.take n))
  | _ => .error (.typeError (pyTypeName v ++ " object is not subscriptable"))

/-- d.get(k, default): AttributeError on a non-dict receiver, as in Python. -/
def pyGetD (v : PyVal) (k : String) (dflt : PyVal) : Except PyErr PyVal :=
  match v with
  | .dict kvs =>
    match kvs.find? (fun kv => kv.1 == k) with
    | some kv => .ok kv.2
    | Option.none => .ok dflt
  | _ => .error (.attributeError (pyTypeName v ++ " object has no attribute get"))

/-- Total dictionary lookup with default, used to state properties
(it agrees with `pyGetD` on dictionaries). -/
def pvGetD (v : PyVal) (k : String) (dflt : PyVal) : PyVal :=
  match v with
  | .dict kvs =>
    match kvs.find? (fun kv => kv.1 == k) with
    | some kv => kv.2
    | Option.none => dflt
  | _ => dflt

/-- Is the value a Python dict. -/
def isDict : PyVal → Bool
  | .dict _ => true
  | _ => false

/-- Substring containment on strings, used for the Python `in` operator. -/
def charsContain (pat : List Char) : List Char → Bool
  | [] => pat.isEmpty
  | c :: cs => (pat.isPrefixOf (c :: cs)) || charsContain pat cs

/-- s contains pat as a substring. -/
def strContains (s pat : String) : Bool :=
  pat.isEmpty || charsContain pat.toList s.toList

/-- Python `k in v` for a string key k: key membership for dicts,
substring test for strings, element membership for lists, TypeError for
the remaining types — exactly the behaviour of `in` on these values. -/
def pyIn (k : String) (v : PyVal) : Except PyErr Bool :=
  match v with
  | .dict kvs => .ok (kvs.any (fun kv => kv.1 == k))
  | .str s => .ok (strContains s k)
  | .list xs => .ok (xs.any (fun x => pyBeq x (.str k)))
  | _ => .error (.typeError ("argument of type " ++ pyTypeName v ++ " is not iterable"))

theorem pyGetD_of_dict (kvs : List (String × PyVal)) (k : String) (dflt : PyVal) :
    pyGetD (.dict kvs) k dflt = .ok (pvGetD (.dict kvs) k dflt) := by
  simp only [pyGetD, pvGetD]
  cases h : kvs.find? (fun kv => kv.1 == k) <;> simp [h]

/-! ## JSON decoding (json.loads)

A decoder for the JSON subset the agent exchanges with the model: objects,
arrays, strings with the standard escapes, integers, and the three literal
words.  It mirrors json.loads behaviour on this subset: surrounding
whitespace is allowed, the whole input must be consumed (otherwise
"Extra data"), control characters are rejected inside strings, duplicate
object keys keep the first position with the last value. -/

/-- JSON whitespace (also the character class of the \s regex escape and of
str.strip, restricted to ASCII, which is all the agent manipulates). -/
def pyWsChar (c : Char) : Bool :=
  c == ' ' || c == '\t' || c == '\n' || c == '\r' || c == '\x0b' || c == '\x0c'

def jsonWs (c : Char) : Bool :=
  match c with
  | ' ' => true
  | '\t' => true
  | '\n' => true
  | '\r' => true
  | _ => false

def skipJsonWs (cs : List Char) : List Char :=
  match cs with
  | [] => []
  | c :: rest => if jsonWs c then skipJsonWs rest else cs

def hexVal (c : Char) : Option Nat :=
  let n := c.toNat
  if 48 ≤ n && n ≤ 57 then some (n - 48)
  else if 97 ≤ n && n ≤ 102 then some (n - 87)
  else if 65 ≤ n && n ≤ 70 then some (n - 55)
  else Option.none

def escChar : Char → Option Char
  | '"' => some '"'
  | '\\' => some '\\'
  | '/' => some '/'
  | 'b' => some (Char.ofNat 0x08)
  | 'f' => some (Char.ofNat 0x0c)
  | 'n' => some (Char.ofNat 0x0a)
  | 'r' => some (Char.ofNat 0x0d)
  | 't' => some (Char.ofNat 0x09)
  | _ => Option.none

/-- Parse a JSON string body after the opening quote; returns the decoded
characters and the remainder after the closing quote.  Lone surrogates in
a \uXXXX escape decode to the null character (a modelled simplification;
no analysed reply uses them). -/
def parseJStr : List Char → Except String (List Char × List Char)
  | [] => .error "Unterminated string"
  | c :: cs =>
    if c == '"' then .ok ([], cs)
    else if c == '\\' then
      match cs with
      | [] => .error "Unterminated string"
      | e :: cs2 =>
        if e == 'u' then
          match cs2 with
          | h1 :: h2 :: h3 :: h4 :: rest =>
            match hexVal h1, hexVal h2, hexVal h3, hexVal h4 with
            | some a, some b, some c2, some d =>
              match parseJStr rest with
              | .ok (out, rem) => .ok (Char.ofNat (((a * 16 + b) * 16 + c2) * 16 + d) :: out, rem)
              | .error m => .error m
            | _, _, _, _ => .error "Invalid unicode escape"
          | _ => .error "Invalid unicode escape"
        else
          match escChar e with
          | some r =>
            match parseJStr cs2 with
            | .ok (out, rem) => .ok (r :: out, rem)
            | .error m => .error m
          | Option.none => .error "Invalid escape"
    else if c.toNat < 32 then .error "Invalid control character"
    else
      match parseJStr cs with
      | .ok (out, rem) => .ok (c :: out, rem)
      | .error m => .error m

def digitsSpan (cs : List Char) : List Char × List Char :=
  match cs with
  | d :: rest =>
    if d.isDigit then
      let tail := digitsSpan rest
      (d :: tail.1, tail.2)
    else ([], cs)
  | [] => ([], [])

def natOfDigits : List Char → Nat → Nat
  | [], acc => acc
  | d :: rest, acc => natOfDigits rest (acc * 10 + (d.toNat - 48))

/-- Parse a JSON number.  The integer part follows the JSON grammar (no
leading zeros); a following fraction or exponent is outside the modelled
subset and reported as a decode error. -/
def parseJNum (cs : List Char) : Except String (PyVal × List Char) :=
  let sgn : Bool := cs.head? == some '-'
  let cs1 : List Char := if sgn then cs.drop 1 else cs
  match cs1 with
  | [] => .error "Expecting value"
  | d :: rest =>
    if !d.isDigit then .error "Expecting value"
    else
      let span : List Char × List Char :=
        if d == '0' then ([d], rest) else digitsSpan (d :: rest)
      match span.2 with
      | '.' :: _ => .error "Fractional numbers are outside the modelled subset"
      | 'e' :: _ => .error "Exponent numbers are outside the modelled subset"
      | 'E' :: _ => .error "Exponent numbers are outside the modelled subset"
      | _ =>
        let n : Int := Int.ofNat (natOfDigits span.1 0)
        .ok (.int (if sgn then -n else n), span.2)

/-- Insert a key into an object under construction: an existing key keeps
its position and takes the new value, as a Python dict does. -/
def dictInsert (kvs : List (String × PyVal)) (k : String) (v : PyVal) : List (String × PyVal) :=
  match kvs with
  | [] => [(k, v)]
  | (k2, w) :: rest => if k2 == k then (k2, v) :: rest else (k2, w) :: dictInsert rest k v

/-- Check that the characters of lit are the next characters of cs. -/
def expectLit (lit : List Char) (cs : List Char) : Option (List Char) :=
  match lit, cs with
  | [], rest => some rest
  | l :: ls, c :: rest => if c == l then expectLit ls rest else Option.none
  | _ :: _, [] => Option.none

mutual
def parseJVal : Nat → List Char → Except String (PyVal × List Char)
  | 0, _ => .error "Nesting exceeds modelled fuel"
  | fuel + 1, cs =>
    match skipJsonWs cs with
    | [] => .error "Expecting value"
    | c :: rest =>
      if c == '{' then
        match skipJsonWs rest with
        | '}' :: rem => .ok (.dict [], rem)
        | cs2 => parseJMembers fuel cs2 []
      else if c == '[' then
        match skipJsonWs rest with
        | ']' :: rem => .ok (.list [], rem)
        | cs2 => parseJItems fuel cs2 []
      else if c == '"' then
        match parseJStr rest with
        | .ok (out, rem) => .ok (.str (String.mk out), rem)
        | .error m => .error m
      else if c == 't' then
        match expectLit ("rue".toList) rest with
        | some rem => .ok (.bool true, rem)
        | Option.none => .error "Expecting value"
      else if c == 'f' then
        match expectLit ("alse".toList) rest with
        | some rem => .ok (.bool false, rem)
        | Option.none => .error "Expecting value"
      else if c == 'n' then
        match expectLit ("ull".toList) rest with
        | some rem => .ok (.none, rem)
        | Option.none => .error "Expecting value"
      else parseJNum (c :: rest)

def parseJMembers : Nat → List Char → List (String × PyVal) → Except String (PyVal × List Char)
  | 0, _, _ => .error "Nesting exceeds modelled fuel"
  | fuel + 1, cs, acc =>
    match cs with
    | '"' :: rest =>
      match parseJStr rest with
      | .error m => .error m
      | .ok (kcs, rem) =>
        match skipJsonWs rem with
        | ':' :: rem2 =>
          match parseJVal fuel rem2 with
          | .error m => .error m
          | .ok (v, rem3) =>
            let acc2 := dictInsert acc (String.mk kcs) v
            match skipJsonWs rem3 with
            | ',' :: rem4 => parseJMembers fuel (skipJsonWs rem4) acc2
            | '}' :: rem4 => .ok (.dict acc2, rem4)
            | _ => .error "Expecting comma delimiter"
        | _ => .error "Expecting colon delimiter"
    | _ => .error "Expecting property name enclosed in double quotes"

def parseJItems : Nat → List Char → List PyVal → Except String (PyVal × List Char)
  | 0, _, _ => .error "Nesting exceeds modelled fuel"
  | fuel + 1, cs, acc =>
    match parseJVal fuel cs with
    | .error m => .error m
    | .ok (v, rem) =>
      match skipJsonWs rem with
      | ',' :: rem2 => parseJItems fuel rem2 (acc ++ [v])
      | ']' :: rem2 => .ok (.list (acc ++ [v]), rem2)
      | _ => .error "Expecting comma delimiter"
end

/-- json.loads: decode one value, allowing surrounding whitespace and
requiring the whole input to be consumed. -/
def jsonLoads (s : String) : Except PyErr PyVal :=
  let cs := s.toList
  match parseJVal (cs.length + 1) cs with
  | .error m => .error (.jsonDecodeError m)
  | .ok (v, rest) =>
    match skipJsonWs rest with
    | [] => .ok v
    | _ => .error (.jsonDecodeError "Extra data")

/-! ## The reply parser of _call_llm (src/agent.py lines 758-789) -/

/-- str.strip() on the raw model reply. -/
def pyStrip (s : String) : String :=
  String.mk (((s.toList.dropWhile pyWsChar).reverse.dropWhile pyWsChar).reverse)

/-- re.sub of a leading code-fence opener: removes a literal three-backtick
json marker at the start of the text together with the whitespace run
following it. -/
def stripFencePre (s : String) : String :=
  let cs := s.toList
  let pre := "```json".toList
  if pre.isPrefixOf cs then String.mk ((cs.drop pre.length).dropWhile pyWsChar) else s

/-- re.sub of a trailing code fence: removes a literal three-backtick
marker at the end of the text together with the whitespace run before it. -/
def stripFenceSuf (s : String) : String :=
  let rcs := s.toList.reverse
  let suf := "```".toList
  if suf.isPrefixOf rcs then String.mk (((rcs.drop suf.length).dropWhile pyWsChar).reverse) else s

/-- The DOTALL brace regex search of the source: with the regex being an
opening brace, a greedy any-run, then a closing brace, the leftmost-longest
match runs from the first opening brace to the last closing brace of the
whole text; when no such pair exists the text is left unchanged. -/
def greedyBraceExtract (s : String) : String :=
  let cs := s.toList
  match cs.findIdx? (fun c => c == '{'), cs.reverse.findIdx? (fun c => c == '}') with
  | some i, some jr =>
    let j := cs.length - 1 - jr
    if i < j then String.mk ((cs.drop i).take (j - i + 1)) else s
  | _, _ => s

/-- _call_llm after the chat-completion request: the argument is the
outcome of the request (raised exception, or the raw reply text already
stripped as in the source).  Decodes and validates the reply; every
failure is re-raised to the caller. -/
def call_llm (resp : Except PyErr String) : Except PyErr PyVal :=
  match resp with
  | .error e => .error e
  | .ok raw =>
    let content := pyStrip raw
    let content := stripFencePre content
    let content := stripFenceSuf content
    let content := greedyBraceExtract content
    match jsonLoads content with
    | .error e => .error e
    | .ok data =>
      match pyIn "action" data with
      | .error e => .error e
      | .ok b => if b then .ok data else .error (.valueError "Missing action")

/-- Acceptance view of the parser outcome. -/
def acceptedOf : Except PyErr PyVal → Option PyVal
  | .ok v => some v
  | .error _ => Option.none

/-- Modelled from the spec: take the region of the first balanced
brace-delimited object starting at the first opening brace. -/
def takeBalanced : List Char → Nat → List Char → Option (List Char)
  | [], _, _ => Option.none
  | c :: cs, depth, acc =>
    if c == '{' then takeBalanced cs (depth + 1) (c :: acc)
    else if c == '}' then
      if depth == 1 then some ((c :: acc).reverse)
      else takeBalanced cs (depth - 1) (c :: acc)
    else takeBalanced cs depth (c :: acc)

/-- Modelled from the spec: the first balanced brace-delimited JSON object
contained in the text, if any. -/
def specFirstBalanced (s : String) : Option String :=
  match s.toList.dropWhile (fun c => c != '{') with
  | [] => Option.none
  | cs => (takeBalanced cs 0 []).map String.mk

/-- Modelled from the spec (claim C5 as stated): strip code-fence wrapping
if present, extract the first balanced brace-delimited JSON object in the
text, decode it, and accept exactly when the decoded object contains an
action field. -/
def spec_parse (raw : String) : Option PyVal :=
  let content := stripFenceSuf (stripFencePre (pyStrip raw))
  match specFirstBalanced content with
  | Option.none => Option.none
  | some obj =>
    match jsonLoads obj with
    | .error _ => Option.none
    | .ok data =>
      match data with
      | .dict kvs => if kvs.any (fun kv => kv.1 == "action") then some data else Option.none
      | _ => Option.none

/-- The amended description of the parser: strip code-fence wrapping if
present, take the substring from the first opening brace through the last
closing brace when one follows the other (the whole text otherwise),
decode it, and accept exactly when the decoded value contains action under
the Python membership test: a key of an object, a substring of a string,
an element of an array. -/
def spec_parse_greedy (raw : String) : Option PyVal :=
  let content := greedyBraceExtract (stripFenceSuf (stripFencePre (pyStrip raw)))
  match jsonLoads content with
  | .error _ => Option.none
  | .ok data =>
    match data with
    | .dict kvs => if kvs.any (fun kv => kv.1 == "action") then some data else Option.none
    | .str s => if strContains s "action" then some data else Option.none
    | .list xs => if xs.any (fun x => pyBeq x (.str "action")) then some data else Option.none
    | _ => Option.none

/-! ## Stagnation detection (src/agent.py lines 602-624) -/

/-- The warning string returned by _detect_loop. -/
def loopWarningText : String :=
  "LOOP DETECTED: 连续3步页面状态完全相同！你必须尝试本质不同的操作（换URL、换策略、或用done结束）。如果这是误判（例如操作确实需要重复执行），请忽略并继续执行。"

/-- The pruning step of _detect_loop: only the most recent 10 entries of
the fingerprint window are kept. -/
def trimWindow (hs : List String) : List String :=
  if hs.length > 10 then hs.drop (hs.length - 10) else hs

def lastThreeEqualRev : List String → Bool
  | a :: b :: c :: _ => a == b && b == c
  | _ => false

/-- The last three entries exist and are pairwise equal. -/
def lastThreeEqual (hs : List String) : Bool := lastThreeEqualRev hs.reverse

/-- _detect_loop: append the fingerprint to the window, keep the recent 10,
and warn when the window holds at least 5 entries whose last three are
equal.  Returns the new window and the optional warning. -/
def detect_loop (window : List String) (h : String) : List String × Option String :=
  let hs := trimWindow (window ++ [h])
  if hs.length ≥ 5 && lastThreeEqual hs then (hs, some loopWarningText)
  else (hs, Option.none)

/-- The window contents after observing the fingerprints of s in order,
starting from the empty window of a fresh run. -/
def windowAfter (s : List String) : List String :=
  s.foldl (fun w h => (detect_loop w h).1) []

/-- The most recent 10 entries of a sequence (all of it when shorter). -/
def lastTen (s : List String) : List String := s.drop (s.length - 10)

theorem detect_loop_fst (w : List String) (h : String) :
    (detect_loop w h).1 = trimWindow (w ++ [h]) := by
  unfold detect_loop
  dsimp only
  split <;> rfl

theorem trimWindow_lastTen (s : List String) (h : String) :
    trimWindow (lastTen s ++ [h]) = lastTen (s ++ [h]) := by
  unfold trimWindow lastTen
  by_cases hc : s.length ≤ 9
  · have h1 : s.length - 10 = 0 := by omega
    have h3 : (s ++ [h]).length - 10 = 0 := by simp [List.length_append]; omega
    simp only [h1, List.drop_zero, h3]
    have h4 : ¬ ((s ++ [h]).length > 10) := by simp [List.length_append]; omega
    simp [h4]
  · have hlen : (s.drop (s.length - 10)).length = 10 := by
      rw [List.length_drop]; omega
    have hlen2 : (s.drop (s.length - 10) ++ [h]).length = 11 := by
      simp [List.length_append, hlen]
    rw [hlen2]
    have h11 : (11 : Nat) > 10 := by omega
    simp only [if_pos h11]
    have h1 : (11 : Nat) - 10 = 1 := by omega
    rw [h1]
    rw [List.drop_append_eq_append_drop]
    rw [List.drop_drop]
    have h2 : 1 - (s.drop (s.length - 10)).length = 0 := by rw [hlen]
    rw [h2, List.drop_zero]
    rw [List.drop_append_eq_append_drop]
    have h4 : (s ++ [h]).length - 10 = s.length - 10 + 1 := by simp [List.length_append]; omega
    rw [h4]
    have h5 : s.length - 10 + 1 - s.length = 0 := by omega
    rw [h5, List.drop_zero]

theorem windowAfter_eq_lastTen (s : List String) : windowAfter s = lastTen s := by
  induction s using List.reverseRecOn with
  | nil => rfl
  | append_singleton s h ih =>
    have hstep : windowAfter (s ++ [h]) = (detect_loop (windowAfter s) h).1 := by
      unfold windowAfter
      rw [List.foldl_concat]
    rw [hstep, detect_loop_fst, ih]
    exact trimWindow_lastTen s h

theorem lastTen_length (s : List String) : (lastTen s).length = min s.length 10 := by
  unfold lastTen
  rw [List.length_drop]
  omega

theorem lastThreeEqualRev_take (rs : List String) (m : Nat) (hm : 3 ≤ m) :
    lastThreeEqualRev (rs.take m) = lastThreeEqualRev rs := by
  obtain ⟨k, rfl⟩ : ∃ k, m = k + 3 := ⟨m - 3, by omega⟩
  match rs with
  | [] => rw [List.take_nil]
  | [a] =>
    rw [show k + 3 = (k + 2) + 1 by omega, List.take_succ_cons, List.take_nil]
  | [a, b] =>
    rw [show k + 3 = (k + 2) + 1 by omega, List.take_succ_cons,
        show k + 2 = (k + 1) + 1 by omega, List.take_succ_cons, List.take_nil]
  | a :: b :: c :: t =>
    rw [show k + 3 = (k + 2) + 1 by omega, List.take_succ_cons,
        show k + 2 = (k + 1) + 1 by omega, List.take_succ_cons, List.take_succ_cons]
    rfl

theorem lastThreeEqual_lastTen (s : List String) (hs : 3 ≤ s.length) :
    lastThreeEqual (lastTen s) = lastThreeEqual s := by
  unfold lastThreeEqual lastTen
  rw [List.reverse_drop]
  exact lastThreeEqualRev_take s.reverse _ (by omega)

/-! ## State capture (src/agent.py lines 337-394) -/

/-- The result of the page-analysis collaborator analyze() call: the
collaborator is outside the repository; its contract (url, title and an
element array) is consumed as stated in the spec. -/
structure AnalyzeResult where
  url : String
  title : String
  elements : List PyVal
deriving Repr

/-- Per-capture collaborator outcomes: whether the helper could be
(re-)established, the analyze() call, the readable-text call and the
screenshot call. -/
structure CaptureEnv where
  pageUrl : String
  pageTitle : String
  helperOk : Bool
  analyze : Except PyErr AnalyzeResult
  readText : Except PyErr String
  visionEnabled : Bool
  visionShot : Except PyErr String

/-- The loop-owned mutable capture state: the Element Index cache
(self.current_elements) and the vision failure counter. -/
structure AgentCache where
  current_elements : List PyVal
  visionFailCount : Nat
deriving Repr

/-- A captured page state as the loop consumes it. -/
structure PageState where
  url : String
  title : String
  elements : List PyVal
  pageText : String
  screenshot : Option String
  error : Option String
deriving Repr

/-- _get_page_state: on helper-injection failure or an analyze exception,
return an empty-element state annotated with an error string (the cache is
left untouched); on success, replace the cached Element Index with the
fresh element list, then attach screenshot and readable text. -/
def get_page_state (env : CaptureEnv) (cache : AgentCache) : PageState × AgentCache :=
  if !env.helperOk then
    ({url := env.pageUrl, title := env.pageTitle, elements := [], pageText := "",
      screenshot := Option.none, error := some "Helper 注入失败"}, cache)
  else
    match env.analyze with
    | .error e =>
      ({url := env.pageUrl, title := env.pageTitle, elements := [], pageText := "",
        screenshot := Option.none, error := some ("分析失败: " ++ strTake (errStr e) 100)}, cache)
    | .ok st =>
      let els := st.elements
      let shotAndCount : Option String × Nat :=
        if env.visionEnabled && cache.visionFailCount < 3 then
          match env.visionShot with
          | .ok sc => (some sc, 0)
          | .error _ => (Option.none, cache.visionFailCount + 1)
        else (Option.none, cache.visionFailCount)
      let text : String :=
        match env.readText with
        | .ok t => t
        | .error _ => ""
      ({url := st.url, title := st.title, elements := els, pageText := text,
        screenshot := shotAndCount.1, error := Option.none},
       {current_elements := els, visionFailCount := shotAndCount.2})

/-! ## Action execution (src/agent.py lines 411-600)

Each awaited call into the browser collaborator is recorded as a
`BrowserOp`; its outcome (normal return or raised exception) is supplied
by an `ExecEnv`.  A step that never touches the browser therefore records
an empty operation list. -/

inductive BrowserOp where
  | goto (url : PyVal)
  | goBack
  | goForward
  | reload
  | waitStable
  | sleep (seconds : PyVal)
  | locatorCount (selector : PyVal)
  | scrollIntoView (selector : PyVal)
  | click (selector : PyVal)
  | fill (selector : PyVal) (value : PyVal)
  | typeSeq (selector : PyVal) (value : PyVal)
  | clear (selector : PyVal)
  | selectOption (selector : PyVal) (value : PyVal)
  | check (selector : PyVal)
  | uncheck (selector : PyVal)
  | hover (selector : PyVal)
  | focus (selector : PyVal)
  | press (key : PyVal)
  | wheel (dx : PyVal) (dy : PyVal)
  | pause
deriving Repr

/-- Outcomes of the browser collaborator consumed by the executor. -/
structure ExecEnv where
  locatorCount : PyVal → Except PyErr Int
  op : BrowserOp → Except PyErr Unit

/-- Result of an executor computation: a value or a raised exception, in
both cases together with the browser operations performed so far. -/
inductive ERes (α : Type) where
  | ok (a : α) (ops : List BrowserOp)
  | err (e : PyErr) (ops : List BrowserOp)

/-- Executor computations: exception flow plus the recorded operations. -/
def ExecM (α : Type) := List BrowserOp → ERes α

def ExecM.pure {α : Type} (a : α) : ExecM α := fun ops => .ok a ops

def ExecM.bind {α β : Type} (x : ExecM α) (f : α → ExecM β) : ExecM β := fun ops =>
  match x ops with
  | .ok a ops2 => f a ops2
  | .err e ops2 => .err e ops2

instance : Monad ExecM where
  pure := ExecM.pure
  bind := ExecM.bind

def ExecM.raise {α : Type} (e : PyErr) : ExecM α := fun ops => .err e ops

def ofExcept {α : Type} : Except PyErr α → ExecM α
  | .ok a => ExecM.pure a
  | .error e => ExecM.raise e

/-- A try/except around an executor computation. -/
def tryCatchAll {α : Type} (x : ExecM α) (h : PyErr → ExecM α) : ExecM α := fun ops =>
  match x ops with
  | .ok a ops2 => .ok a ops2
  | .err e ops2 => h e ops2

/-- Perform a browser operation, raising the exception the environment
assigns to it. -/
def performOp (env : ExecEnv) (op : BrowserOp) : ExecM Unit := fun ops =>
  match env.op op with
  | .ok _ => .ok () (ops ++ [op])
  | .error e => .err e (ops ++ [op])

/-- asyncio.sleep: records the pause, never raises for the numeric
arguments that reach it. -/
def emitSleep (v : PyVal) : ExecM Unit := fun ops => .ok () (ops ++ [.sleep v])

/-- A fixed fractional asyncio.sleep of the source (0.2/0.3/1 second). -/
def emitPause : ExecM Unit := fun ops => .ok () (ops ++ [.pause])

/-- _wait_for_stable (lines 314-320): the network-idle wait is guarded by
a bare except (its outcome never escapes), then a fractional sleep. -/
def wait_for_stable (_env : ExecEnv) : ExecM Unit := fun ops =>
  .ok () (ops ++ [.waitStable, .pause])

/-- ActionResult dictionaries: message is absent in the done result and
result/done are absent in all others, mirrored by optional fields. -/
structure ActionResult where
  success : Bool
  message : Option String := Option.none
  done : Bool := false
  resultVal : Option PyVal := Option.none
deriving Repr

def resOk (msg : String) : ActionResult := {success := true, message := some msg}

def resFail (msg : String) : ActionResult := {success := false, message := some msg}

/-- _safe_goto (lines 322-335). -/
def safe_goto (env : ExecEnv) (url : PyVal) : ExecM ActionResult :=
  tryCatchAll
    (do
      performOp env (.goto url)
      wait_for_stable env
      let u ← ofExcept (pySlice url 50)
      pure (resOk ("已导航到 " ++ pyStrOf u)))
    (fun e =>
      match e with
      | .playwrightTimeout => do
        emitPause
        let u ← ofExcept (pySlice url 50)
        pure (resOk ("导航超时但页面可能已加载: " ++ pyStrOf u))
      | e2 => pure (resFail ("导航失败: " ++ strTake (errStr e2) 100)))

/-- Query page.locator(selector).first.count(). -/
def queryLocatorCount (env : ExecEnv) (selector : PyVal) : ExecM Int := fun ops =>
  match env.locatorCount selector with
  | .ok n => .ok n (ops ++ [.locatorCount selector])
  | .error e => .err e (ops ++ [.locatorCount selector])

/-- _get_element_locator (lines 425-444): None for an out-of-range index,
a missing/falsy selector, or an unresolvable selector; the page query is
guarded by a bare except.  The index comparisons raise TypeError for a
non-numeric index, exactly as in Python. -/
def get_element_locator (env : ExecEnv) (els : List PyVal) (index : PyVal) :
    ExecM (Option PyVal) := do
  let lt ← ofExcept (pyLt index (.int 1))
  if lt then pure Option.none
  else do
    let gt ← ofExcept (pyGt index (.int (els.length : Int)))
    if gt then pure Option.none
    else do
      let i : Int := (pyToNum index).getD 0
      match els[(i - 1).toNat]? with
      | Option.none => ExecM.raise (.exn "IndexError")
      | some el => do
        let selector ← ofExcept (pyGetD el "selector" .none)
        if !(pyTruthy selector) then pure Option.none
        else
          tryCatchAll
            (do
              let n ← queryLocatorCount env selector
              if n > 0 then pure (some selector) else pure Option.none)
            (fun _ => pure Option.none)

/-- _get_element_desc (lines 411-423). -/
def get_element_desc (els : List PyVal) (index : PyVal) : Except PyErr String := do
  if els.isEmpty then return ("[" ++ pyStrOf index ++ "] (未知元素)")
  let lt ← pyLt index (.int 1)
  if lt then return ("[" ++ pyStrOf index ++ "] (未知元素)")
  let gt ← pyGt index (.int (els.length : Int))
  if gt then return ("[" ++ pyStrOf index ++ "] (未知元素)")
  let i : Int := (pyToNum index).getD 0
  match els[(i - 1).toNat]? with
  | Option.none => .error (.exn "IndexError")
  | some el => do
    let tag ← pyGetD el "tag" (.str "?")
    let textv ← pyGetD el "text" (.str "")
    let text ← pySlice textv 30
    let desc := "[" ++ pyStrOf index ++ "] " ++ pyStrOf tag
    if pyTruthy text then return (desc ++ " \"" ++ pyStrOf text ++ "\"")
    else return desc

/-- The locator-guard pattern that lines 481-565 repeat literally in every
element-targeted branch: resolve first; when resolution yields nothing,
fail with the element-missing message and touch nothing. -/
def withLocator (env : ExecEnv) (els : List PyVal) (index : PyVal)
    (k : PyVal → ExecM ActionResult) : ExecM ActionResult := do
  let loc ← get_element_locator env els index
  match loc with
  | Option.none => pure (resFail ("元素 " ++ pyStrOf index ++ " 不存在"))
  | some sel => k sel

/-- The dispatch chain of _execute_action (lines 452-595), one test per
recognized action type in source order. -/
def execute_body (env : ExecEnv) (els : List PyVal)
    (action action_type index value : PyVal) : ExecM ActionResult :=
  if pyBeq action_type (.str "goto") then do
    let url ← ofExcept (pyGetD action "url" (.str ""))
    if !(pyTruthy url) then pure (resFail "缺少 url 参数")
    else safe_goto env url
  else if pyBeq action_type (.str "back") then do
    performOp env .goBack
    wait_for_stable env
    pure (resOk "已后退")
  else if pyBeq action_type (.str "forward") then do
    performOp env .goForward
    wait_for_stable env
    pure (resOk "已前进")
  else if pyBeq action_type (.str "refresh") then do
    performOp env .reload
    wait_for_stable env
    pure (resOk "已刷新")
  else if pyBeq action_type (.str "wait") then do
    let secReq ← ofExcept (pyGetD action "seconds" (.int 2))
    let seconds ← ofExcept (pyMin secReq 10)
    emitSleep seconds
    pure (resOk ("已等待 " ++ pyStrOf seconds ++ " 秒"))
  else if pyBeq action_type (.str "click") then
    withLocator env els index (fun sel => do
      performOp env (.scrollIntoView sel)
      performOp env (.click sel)
      wait_for_stable env
      let d ← ofExcept (get_element_desc els index)
      pure (resOk ("已点击 " ++ d)))
  else if pyBeq action_type (.str "fill") then
    withLocator env els index (fun sel => do
      performOp env (.scrollIntoView sel)
      performOp env (.fill sel value)
      let d ← ofExcept (get_element_desc els index)
      pure (resOk ("已输入到 " ++ d)))
  else if pyBeq action_type (.str "type") then
    withLocator env els index (fun sel => do
      performOp env (.scrollIntoView sel)
      performOp env (.click sel)
      performOp env (.typeSeq sel value)
      let d ← ofExcept (get_element_desc els index)
      pure (resOk ("已键入到 " ++ d)))
  else if pyBeq action_type (.str "clear") then
    withLocator env els index (fun sel => do
      performOp env (.clear sel)
      let d ← ofExcept (get_element_desc els index)
      pure (resOk ("已清空 " ++ d)))
  else if pyBeq action_type (.str "select") then
    withLocator env els index (fun sel => do
      performOp env (.selectOption sel value)
      pure (resOk ("已选择 \"" ++ pyStrOf value ++ "\"")))
  else if pyBeq action_type (.str "check") then
    withLocator env els index (fun sel => do
      performOp env (.check sel)
      let d ← ofExcept (get_element_desc els index)
      pure (resOk ("已勾选 " ++ d)))
  else if pyBeq action_type (.str "uncheck") then
    withLocator env els index (fun sel => do
      performOp env (.uncheck sel)
      let d ← ofExcept (get_element_desc els index)
      pure (resOk ("已取消勾选 " ++ d)))
  else if pyBeq action_type (.str "hover") then
    withLocator env els index (fun sel => do
      performOp env (.hover sel)
      let d ← ofExcept (get_element_desc els index)
      pure (resOk ("已悬停在 " ++ d)))
  else if pyBeq action_type (.str "focus") then
    withLocator env els index (fun sel => do
      performOp env (.focus sel)
      let d ← ofExcept (get_element_desc els index)
      pure (resOk ("已聚焦 " ++ d)))
  else if pyBeq action_type (.str "scrollTo") then
    withLocator env els index (fun sel => do
      performOp env (.scrollIntoView sel)
      let d ← ofExcept (get_element_desc els index)
      pure (resOk ("已滚动到 " ++ d)))
  else if pyBeq action_type (.str "press") then do
    let key ← ofExcept (pyGetD action "key" (.str "Enter"))
    performOp env (.press key)
    wait_for_stable env
    pure (resOk ("已按 " ++ pyStrOf key))
  else if pyBeq action_type (.str "scroll") then do
    let direction ← ofExcept (pyGetD action "direction" (.str "down"))
    let amount ← ofExcept (pyGetD action "amount" (.int 500))
    if pyBeq direction (.str "down") then
      performOp env (.wheel (.int 0) amount)
    else if pyBeq direction (.str "up") then do
      let neg ← ofExcept (pyNeg amount)
      performOp env (.wheel (.int 0) neg)
    else if pyBeq direction (.str "right") then
      performOp env (.wheel amount (.int 0))
    else if pyBeq direction (.str "left") then do
      let neg ← ofExcept (pyNeg amount)
      performOp env (.wheel neg (.int 0))
    else pure ()
    emitPause
    pure (resOk ("已向" ++ pyStrOf direction ++ "滚动"))
  else if pyBeq action_type (.str "done") then do
    let result ← ofExcept (pyGetD action "result" (.str "任务完成"))
    pure {success := true, done := true, resultVal := some result}
  else
    pure (resFail ("未知操作: " ++ pyStrOf action_type))

/-- The two except clauses of _execute_action (lines 597-600): a timeout
failure for PlaywrightTimeout, a generic truncated failure otherwise. -/
def catchHandler (action_type : PyVal) (e : PyErr) : ExecM ActionResult :=
  match e with
  | .playwrightTimeout => pure (resFail ("操作超时: " ++ pyStrOf action_type))
  | e2 => pure (resFail ("操作失败: " ++ strTake (errStr e2) 100))

/-- _execute_action (lines 446-600): the three field reads stand before the
try block, so they raise to the caller on a non-dict action; everything the
dispatch body raises is converted to a timeout or generic failure result. -/
def execute_action (env : ExecEnv) (els : List PyVal) (action : PyVal) :
    Except PyErr (ActionResult × List BrowserOp) :=
  match pyGetD action "type" .none, pyGetD action "index" .none,
        pyGetD action "value" (.str "") with
  | .ok action_type, .ok index, .ok value =>
    let caught := tryCatchAll (execute_body env els action action_type index value)
      (catchHandler action_type)
    match caught [] with
    | .ok res ops => .ok (res, ops)
    | .err e ops => .ok (resFail ("操作失败: " ++ strTake (errStr e) 100), ops)
  | .error e, _, _ => .error e
  | _, .error e, _ => .error e
  | _, _, .error e => .error e

/-- Fingerprint of a page state for loop detection (_compute_state_hash).
The two MD5 digests are modelled as one injective encoding of the digested
key data: url, element count and the first 500 characters of the page
text — what matters to every verified property is which states collide. -/
def compute_state_hash (st : PageState) : String :=
  "H|" ++ st.url ++ "|" ++ toString st.elements.length ++ "|" ++ strTake st.pageText 500

/-! ## The agent run loop (src/agent.py lines 791-881) -/

/-- Content of a conversation entry.  The system prompt and the per-step
observation are carried structurally: their rendering into prompt text is
presentation, and no analysed property depends on it.  The assistant
entries and plain user texts are carried as the source appends them. -/
inductive MsgContent where
  | systemPrompt
  | obs (state : PageState) (task : String) (step : Nat) (loopWarning : Option String)
  | assistantVal (v : PyVal)
  | assistantJson (v : PyVal)
  | text (s : String)

structure Msg where
  role : String
  content : MsgContent

/-- The corrective instruction appended after a malformed reply (line 851). -/
def correctiveInstruction : String :=
  "错误：你的上一次响应不是合法的 JSON 或缺少 \"action\" 字段，操作未被执行。请重新输出仅包含合法、符合要求的 JSON 回复，不要附加任何多余文本；若反复失败，请换一种方法完成任务。"

/-- The loop-owned state threaded between iterations: conversation history,
the stagnation window, the capture cache, and the binding of the local
variable named response (absent until the first completed model call). -/
structure LoopState where
  messages : List Msg
  hashes : List String
  cache : AgentCache
  respVar : Option PyVal

/-- Collaborator outcomes for one loop iteration: the capture inputs, the
model request outcome (raised exception or raw reply text), and the
browser outcomes for the executed action. -/
structure StepInput where
  cap : CaptureEnv
  llm : Except PyErr String
  exec : ExecEnv

inductive StepOut where
  | next (st : LoopState)
  | finished (result : PyVal)
  | crashed (e : PyErr)

/-- The reads performed inside the try block after a decoded reply: the
thought and action fields, the display slicing of the thought, and the
display read of the action type (lines 836-845). -/
def post_parse_reads (d : PyVal) : Except PyErr PyVal := do
  let thought ← pyGetD d "thought" (.str "")
  let action ← pyGetD d "action" (.dict [])
  let _ ← pySlice thought 70
  let _ ← pyGetD action "type" (.str "unknown")
  return action

/-- The except branch of the model call (lines 847-852): it reads the
variable response — unbound when no model call of this run has completed,
so the first-step failure raises out of the loop — and appends the read
content plus the corrective instruction. -/
def repair_branch (msgs1 : List Msg) (hashes2 : List String) (cache2 : AgentCache)
    (respVar : Option PyVal) : StepOut :=
  match respVar with
  | Option.none => .crashed (.unboundLocal "response")
  | some r =>
    match pyGetD r "content" (.str "") with
    | .error e => .crashed e
    | .ok c =>
      .next {messages := msgs1 ++
               [{role := "assistant", content := .assistantVal c},
                {role := "user", content := .text correctiveInstruction}],
             hashes := hashes2, cache := cache2, respVar := respVar}

/-- The printed result line appended to history after execution
(lines 864-867). -/
def result_message (res : ActionResult) : String :=
  if res.success then "Result: " ++ res.message.getD "unknown"
  else "Failed: " ++ ("Result: " ++ res.message.getD "unknown")

/-- The action-execution tail of an iteration (lines 854-873): the
accepted decision is already appended to history as msgs2; execute the
action, append the result message, and end the run on a done result.
A raised exception here is uncaught and crashes the run. -/
def step_exec (inp : StepInput) (msgs2 : List Msg) (hashes2 : List String)
    (cache2 : AgentCache) (d action : PyVal) : StepOut :=
  match execute_action inp.exec cache2.current_elements action with
  | .error e => .crashed e
  | .ok (res, _) =>
    if res.done then .finished (res.resultVal.getD (.str "Task completed"))
    else .next {messages := msgs2 ++ [{role := "user", content := .text (result_message res)}],
                hashes := hashes2, cache := cache2, respVar := some d}

/-- The decoded-reply phase (lines 836-856): the reads inside the try
block either succeed — the decision is appended verbatim and executed —
or fall into the repair branch with the response variable freshly bound. -/
def step_act (inp : StepInput) (msgs1 : List Msg) (hashes2 : List String)
    (cache2 : AgentCache) (d : PyVal) : StepOut :=
  match post_parse_reads d with
  | .error _ => repair_branch msgs1 hashes2 cache2 (some d)
  | .ok action =>
    step_exec inp (msgs1 ++ [{role := "assistant", content := .assistantJson d}])
      hashes2 cache2 d action

/-- The model call with its two outcomes (lines 834-852): a reply that
fails to decode goes to the repair branch with the response variable still
holding its previous binding. -/
def step_decide (inp : StepInput) (msgs1 : List Msg) (hashes2 : List String)
    (cache2 : AgentCache) (respVar : Option PyVal) : StepOut :=
  match call_llm inp.llm with
  | .error _ => repair_branch msgs1 hashes2 cache2 respVar
  | .ok d => step_act inp msgs1 hashes2 cache2 d

/-- The observation entry appended to history each step (lines 829-831). -/
def observation_msg (inp : StepInput) (task : String) (step : Nat) (st : LoopState) : Msg :=
  {role := "user",
   content := MsgContent.obs (get_page_state inp.cap st.cache).1 task step
     (detect_loop st.hashes (compute_state_hash (get_page_state inp.cap st.cache).1)).2}

/-- One iteration of the run loop body (lines 810-873): capture, fingerprint
and loop detection, observation appended to history, then the decide/act
phase on the captured state. -/
def step_run (inp : StepInput) (task : String) (step : Nat) (st : LoopState) : StepOut :=
  step_decide inp
    (st.messages ++ [observation_msg inp task step st])
    (detect_loop st.hashes (compute_state_hash (get_page_state inp.cap st.cache).1)).1
    (get_page_state inp.cap st.cache).2
    st.respVar

inductive RunOutcome where
  | done (result : PyVal)
  | exhausted (msg : String)
  | crashed (e : PyErr)

/-- Outcome of a run together with the number of loop iterations entered. -/
structure RunResult where
  outcome : RunOutcome
  steps : Nat

/-- The bounded for-loop of run: iterate the step body at most maxSteps
times; a done result or an uncaught exception ends the run early, and the
exhausted budget returns the budget-exceeded message. -/
def run_aux (inputs : Nat → StepInput) (task : String) (maxSteps : Nat) :
    Nat → Nat → LoopState → RunResult
  | 0, _, _ => {outcome := .exhausted ("Max steps reached (" ++ toString maxSteps ++ ")"), steps := 0}
  | fuel + 1, stepNo, st =>
    match step_run (inputs stepNo) task stepNo st with
    | .crashed e => {outcome := .crashed e, steps := 1}
    | .finished v => {outcome := .done v, steps := 1}
    | .next st2 =>
      let r := run_aux inputs task maxSteps fuel (stepNo + 1) st2
      {outcome := r.outcome, steps := r.steps + 1}

/-- The state at the top of the loop: system instructions only, an empty
stagnation window, an empty Element Index, no bound response variable. -/
def initLoopState : LoopState :=
  {messages := [{role := "system", content := .systemPrompt}], hashes := [],
   cache := {current_elements := [], visionFailCount := 0}, respVar := Option.none}

/-- Browser4Zero.run from the top of its step loop (the start-up phase of
browser launch and optional initial navigation precedes it and is covered
by the capture environment of the first step). -/
def run (inputs : Nat → StepInput) (task : String) (maxSteps : Nat) : RunResult :=
  run_aux inputs task maxSteps maxSteps 1 initLoopState

/-! ## Claim theorems -/

/-- C7: the stagnation window is a bounded FIFO: after every observation
sequence it holds exactly the most recent fingerprints — never more than
10 — with the oldest discarded first. -/
theorem stagnation_window_bounded_fifo (s : List String) :
    windowAfter s = lastTen s ∧ (windowAfter s).length ≤ 10 := by
  refine ⟨windowAfter_eq_lastTen s, ?_⟩
  rw [windowAfter_eq_lastTen, lastTen_length]
  omega

/-- C1 counterexample: after exactly three recorded fingerprints, all
equal, _detect_loop emits nothing — the claim as stated says the
stagnation warning should fire here. -/
theorem detect_loop_three_equal_no_warning :
    (detect_loop (windowAfter ["h", "h"]) "h").2 = Option.none ∧
    3 ≤ (["h", "h", "h"] : List String).length ∧
    lastThreeEqual ["h", "h", "h"] = true :=
  ⟨rfl, by simp, rfl⟩

/-- C1 (amended): for every sequence of recorded fingerprints, the
stagnation warning is emitted if and only if at least 5 fingerprints have
been recorded and the last three recorded fingerprints are pairwise equal;
it is never emitted before 5 fingerprints exist. -/
theorem detect_loop_warning_iff (prior : List String) (h : String) :
    (detect_loop (windowAfter prior) h).2 = some loopWarningText ↔
      (5 ≤ prior.length + 1 ∧ lastThreeEqual (prior ++ [h]) = true) := by
  have hw : windowAfter prior = lastTen prior := windowAfter_eq_lastTen prior
  have hfull : (prior ++ [h]).length = prior.length + 1 := by simp
  have hlen : (lastTen (prior ++ [h])).length = min (prior.length + 1) 10 := by
    rw [lastTen_length, hfull]
  unfold detect_loop
  dsimp only
  rw [hw, trimWindow_lastTen]
  by_cases hcond : (decide ((lastTen (prior ++ [h])).length ≥ 5)
      && lastThreeEqual (lastTen (prior ++ [h]))) = true
  · rw [if_pos hcond]
    rw [Bool.and_eq_true, decide_eq_true_eq] at hcond
    obtain ⟨hlen5, heq⟩ := hcond
    rw [hlen] at hlen5
    have h5 : 5 ≤ prior.length + 1 := by omega
    have h3 : 3 ≤ (prior ++ [h]).length := by rw [hfull]; omega
    rw [lastThreeEqual_lastTen _ h3] at heq
    simp [h5, heq]
  · rw [if_neg hcond]
    refine iff_of_false (by simp) ?_
    rintro ⟨h5, heq⟩
    apply hcond
    rw [Bool.and_eq_true, decide_eq_true_eq]
    refine ⟨?_, ?_⟩
    · rw [hlen]; omega
    · rw [lastThreeEqual_lastTen _ (by rw [hfull]; omega)]
      exact heq

/-- A capture environment in which the helper cannot be injected. -/
def captureFailEnv : CaptureEnv :=
  {pageUrl := "https://a.example/", pageTitle := "A", helperOk := false,
   analyze := .error (.exn "boom"), readText := .ok "", visionEnabled := false,
   visionShot := .error (.exn "boom")}

/-- An Element Index cache still holding an element of an earlier step. -/
def staleCache : AgentCache :=
  {current_elements := [.dict [("tag", .str "button")]], visionFailCount := 0}

/-- C3 counterexample: a failed capture returns the empty-element error
state but leaves the previously cached Element Index in place, so the
index differs from the element sequence of the returned PageState. -/
theorem get_page_state_stale_counterexample :
    (get_page_state captureFailEnv staleCache).1.elements = [] ∧
    ((get_page_state captureFailEnv staleCache).1.error).isSome = true ∧
    (get_page_state captureFailEnv staleCache).2.current_elements ≠
      (get_page_state captureFailEnv staleCache).1.elements := by
  refine ⟨rfl, rfl, ?_⟩
  simp [get_page_state, captureFailEnv, staleCache]

/-- C3 (amended): after a successful capture the Element Index is replaced
wholesale by the element sequence of the returned PageState; after a failed
capture the returned PageState has an empty element list annotated with an
error string, but the Element Index keeps its previous contents and may
still hold elements of a prior step. -/
theorem get_page_state_index_discipline (env : CaptureEnv) (cache : AgentCache) :
    ((get_page_state env cache).1.error = Option.none ∧
      (get_page_state env cache).2.current_elements = (get_page_state env cache).1.elements)
    ∨ (((get_page_state env cache).1.error).isSome = true ∧
      (get_page_state env cache).1.elements = [] ∧
      (get_page_state env cache).2.current_elements = cache.current_elements) := by
  unfold get_page_state
  cases hh : env.helperOk with
  | false => right; exact ⟨rfl, rfl, rfl⟩
  | true =>
    cases ha : env.analyze with
    | error e => right; exact ⟨rfl, rfl, rfl⟩
    | ok st => left; exact ⟨rfl, rfl⟩

/-- A reply whose text holds a later closing brace after the first balanced
object. -/
def cexGreedyReply : String := "\x7b\"action\": \"ok\"\x7d and \x7b\"x\": 1\x7d"

/-- A reply that is a bare JSON string containing the word action. -/
def cexMembershipReply : String := "\"action\""

/-- C5 counterexample: on the first reply the described procedure (decode
the first balanced object) accepts while the implemented parser rejects
its first-brace-to-last-brace span; on the second the implemented parser
accepts a decoded plain string through the membership test although no
object with an action field is present. -/
theorem call_llm_extraction_counterexample :
    (spec_parse cexGreedyReply).isSome = true ∧
    acceptedOf (call_llm (.ok cexGreedyReply)) = Option.none ∧
    spec_parse cexMembershipReply = Option.none ∧
    (acceptedOf (call_llm (.ok cexMembershipReply))).isSome = true :=
  ⟨rfl, rfl, rfl, rfl⟩

theorem accepted_match (j : Except PyErr PyVal) :
    acceptedOf (match j with
      | .error e => .error e
      | .ok data =>
        match pyIn "action" data with
        | .error e => .error e
        | .ok b => if b then .ok data else .error (.valueError "Missing action")) =
    (match j with
      | .error _ => Option.none
      | .ok data =>
        match data with
        | .dict kvs => if kvs.any (fun kv => kv.1 == "action") then some data else Option.none
        | .str s => if strContains s "action" then some data else Option.none
        | .list xs => if xs.any (fun x => pyBeq x (.str "action")) then some data else Option.none
        | _ => Option.none) := by
  cases j with
  | error e => rfl
  | ok data =>
    cases data with
    | none => rfl
    | bool b => rfl
    | int n => rfl
    | str s =>
      simp only [pyIn]
      by_cases hc : strContains s "action" <;> simp [hc, acceptedOf]
    | list xs =>
      simp only [pyIn]
      by_cases hc : xs.any (fun x => pyBeq x (.str "action")) <;> simp [hc, acceptedOf]
    | dict kvs =>
      simp only [pyIn]
      by_cases hc : kvs.any (fun kv => kv.1 == "action") <;> simp [hc, acceptedOf]

/-- C5 (amended): for every raw model reply, the parser strips code-fence
wrapping if present, takes the substring from the first opening brace
through the last closing brace when one follows the other (the whole text
otherwise), JSON-decodes it, and accepts exactly when the decoded value
contains action under the Python membership test (an action field of an
object, a substring of a string, an element of an array). -/
theorem call_llm_parse_characterization (raw : String) :
    acceptedOf (call_llm (.ok raw)) = spec_parse_greedy raw :=
  accepted_match (jsonLoads (greedyBraceExtract (stripFenceSuf (stripFencePre (pyStrip raw)))))

/-! ### Executor reduction lemmas -/

theorem ExecM.bind_apply {α β : Type} (x : ExecM α) (f : α → ExecM β) (ops : List BrowserOp) :
    (x >>= f) ops = match x ops with
      | .ok a ops2 => f a ops2
      | .err e ops2 => ERes.err e ops2 := rfl

theorem ofExcept_apply {α : Type} (x : Except PyErr α) (ops : List BrowserOp) :
    ofExcept x ops = match x with
      | .ok a => ERes.ok a ops
      | .error e => ERes.err e ops := by cases x <;> rfl

theorem ExecM.pure_apply {α : Type} (a : α) (ops : List BrowserOp) :
    (pure a : ExecM α) ops = .ok a ops := rfl

theorem emitSleep_apply (v : PyVal) (ops : List BrowserOp) :
    emitSleep v ops = .ok () (ops ++ [.sleep v]) := rfl

theorem tryCatchAll_ok_apply {α : Type} (x : ExecM α) (h : PyErr → ExecM α)
    (a : α) (ops ops2 : List BrowserOp) (hx : x ops = .ok a ops2) :
    tryCatchAll x h ops = .ok a ops2 := by
  unfold tryCatchAll
  rw [hx]

theorem tryCatchAll_err_apply {α : Type} (x : ExecM α) (h : PyErr → ExecM α)
    (e : PyErr) (ops ops2 : List BrowserOp) (hx : x ops = .err e ops2) :
    tryCatchAll x h ops = h e ops2 := by
  unfold tryCatchAll
  rw [hx]

theorem catchHandler_typeError (action_type : PyVal) (m : String) (ops : List BrowserOp) :
    catchHandler action_type (.typeError m) ops =
      ERes.ok (resFail ("操作失败: " ++ strTake m 100)) ops := rfl

/-- _execute_action on a dict action, with the field reads resolved. -/
theorem execute_action_eq (env : ExecEnv) (els : List PyVal) (kvs : List (String × PyVal)) :
    execute_action env els (.dict kvs) =
      (match (tryCatchAll (execute_body env els (.dict kvs)
            (pvGetD (.dict kvs) "type" .none) (pvGetD (.dict kvs) "index" .none)
            (pvGetD (.dict kvs) "value" (.str "")))
          (catchHandler (pvGetD (.dict kvs) "type" .none))) [] with
        | .ok res ops => .ok (res, ops)
        | .err e ops => .ok (resFail ("操作失败: " ++ strTake (errStr e) 100), ops)) := by
  unfold execute_action
  simp only [pyGetD_of_dict]

theorem get_element_locator_out_of_range (env : ExecEnv) (els : List PyVal) (i : Int)
    (hrange : i < 1 ∨ i > (els.length : Int)) (ops : List BrowserOp) :
    get_element_locator env els (.int i) ops = .ok Option.none ops := by
  unfold get_element_locator
  rcases hrange with hlt | hgt
  · have h1 : pyLt (.int i) (.int 1) = .ok true := by
      show Except.ok (decide ((i : Int) < 1)) = .ok true
      rw [decide_eq_true hlt]
    simp [h1, ExecM.bind_apply, ofExcept_apply, ExecM.pure_apply]
    rfl
  · have h1 : pyLt (.int i) (.int 1) = .ok false := by
      show Except.ok (decide ((i : Int) < 1)) = .ok false
      rw [decide_eq_false (by omega)]
    have h2 : pyGt (.int i) (.int (els.length : Int)) = .ok true := by
      show Except.ok (decide ((i : Int) > (els.length : Int))) = .ok true
      rw [decide_eq_true hgt]
    simp [h1, h2, ExecM.bind_apply, ofExcept_apply, ExecM.pure_apply]
    rfl

theorem get_element_locator_bad_index (env : ExecEnv) (els : List PyVal) (idx : PyVal)
    (hbad : pyToNum idx = Option.none) (ops : List BrowserOp) :
    get_element_locator env els idx ops =
      .err (.typeError (cmpErrMsg "<" idx (.int 1))) ops := by
  have h1 : pyLt idx (.int 1) = .error (.typeError (cmpErrMsg "<" idx (.int 1))) := by
    unfold pyLt
    rw [hbad]
  unfold get_element_locator
  simp [h1, ExecM.bind_apply, ofExcept_apply]

theorem withLocator_none (env : ExecEnv) (els : List PyVal) (idx : PyVal)
    (k : PyVal → ExecM ActionResult)
    (hloc : ∀ ops, get_element_locator env els idx ops = .ok Option.none ops)
    (ops : List BrowserOp) :
    withLocator env els idx k ops = .ok (resFail ("元素 " ++ pyStrOf idx ++ " 不存在")) ops := by
  unfold withLocator
  rw [ExecM.bind_apply, hloc ops]
  rfl

theorem withLocator_err (env : ExecEnv) (els : List PyVal) (idx : PyVal)
    (k : PyVal → ExecM ActionResult) (e : PyErr)
    (hloc : ∀ ops, get_element_locator env els idx ops = .err e ops)
    (ops : List BrowserOp) :
    withLocator env els idx k ops = .err e ops := by
  unfold withLocator
  rw [ExecM.bind_apply, hloc ops]

/-- The ten element-targeted action types, in dispatch order. -/
def elementActionTypes : List String :=
  ["click", "fill", "type", "clear", "select", "check", "uncheck", "hover", "focus", "scrollTo"]

theorem execute_body_elem_noloc (env : ExecEnv) (els : List PyVal) (a v : PyVal)
    (t : String) (i : Int) (hmem : t ∈ elementActionTypes)
    (hloc : ∀ ops, get_element_locator env els (.int i) ops = .ok Option.none ops)
    (ops : List BrowserOp) :
    execute_body env els a (.str t) (.int i) v ops =
      .ok (resFail ("元素 " ++ toString i ++ " 不存在")) ops := by
  fin_cases hmem <;> exact withLocator_none env els (.int i) _ hloc ops

theorem execute_body_elem_badidx (env : ExecEnv) (els : List PyVal) (a v idx : PyVal)
    (t : String) (hmem : t ∈ elementActionTypes) (hbad : pyToNum idx = Option.none)
    (ops : List BrowserOp) :
    execute_body env els a (.str t) idx v ops =
      .err (.typeError (cmpErrMsg "<" idx (.int 1))) ops := by
  fin_cases hmem <;>
    exact withLocator_err env els idx _ _ (get_element_locator_bad_index env els idx hbad) ops

/-- C4: every element-targeted action whose integer index is below 1 or
above the current element count returns the failure result 元素 index
不存在 (element index does not exist) and performs no browser operation. -/
theorem execute_action_out_of_range (env : ExecEnv) (els : List PyVal)
    (kvs : List (String × PyVal)) (t : String) (i : Int)
    (ht : pvGetD (.dict kvs) "type" .none = .str t)
    (hmem : t ∈ elementActionTypes)
    (hi : pvGetD (.dict kvs) "index" .none = .int i)
    (hrange : i < 1 ∨ i > (els.length : Int)) :
    execute_action env els (.dict kvs) =
      .ok (resFail ("元素 " ++ toString i ++ " 不存在"), []) := by
  have hloc := get_element_locator_out_of_range env els i hrange
  rw [execute_action_eq, ht, hi,
      tryCatchAll_ok_apply _ _ _ _ _
        (execute_body_elem_noloc env els (.dict kvs) (pvGetD (.dict kvs) "value" (.str ""))
          t i hmem hloc [])]

/-- Concrete browser outcomes for closed evaluations. -/
def execBlank : ExecEnv := {locatorCount := fun _ => .ok 0, op := fun _ => .ok ()}

/-- Witness for C4: a click on index 5 with an empty Element Index fails
with the element-missing message and an empty operation record. -/
theorem execute_action_out_of_range_witness :
    execute_action execBlank [] (.dict [("type", .str "click"), ("index", .int 5)]) =
      .ok (resFail "元素 5 不存在", []) :=
  execute_action_out_of_range execBlank [] _ "click" 5 rfl (by decide) rfl
    (Or.inr (by decide))

/-- C8: a wait action sleeps for the requested seconds clamped to at most
10 (2 when no seconds are supplied, the default of the field read) and
returns success reporting the clamped duration. -/
theorem execute_action_wait_clamped (env : ExecEnv) (els : List PyVal)
    (kvs : List (String × PyVal)) (n : Int)
    (ht : pvGetD (.dict kvs) "type" .none = .str "wait")
    (hs : pvGetD (.dict kvs) "seconds" (.int 2) = .int n) :
    execute_action env els (.dict kvs) =
      .ok (resOk ("已等待 " ++ toString (min n 10) ++ " 秒"), [.sleep (.int (min n 10))]) := by
  have hget : pyGetD (.dict kvs) "seconds" (.int 2) = .ok (.int n) := by
    rw [pyGetD_of_dict, hs]
  have hmin : pyMin (.int n) 10 = .ok (.int (min n 10)) := by
    unfold pyMin pyToNum
    by_cases hn : n ≤ 10 <;> simp [hn, min_def]
  have hbody : execute_body env els (.dict kvs) (.str "wait")
      (pvGetD (.dict kvs) "index" .none) (pvGetD (.dict kvs) "value" (.str "")) [] =
      ERes.ok (resOk ("已等待 " ++ toString (min n 10) ++ " 秒")) [.sleep (.int (min n 10))] := by
    unfold execute_body
    simp [pyBeq, hget, hmin, ExecM.bind_apply, ofExcept_apply, ExecM.pure_apply,
      emitSleep_apply, pyStrOf]
    rfl
  rw [execute_action_eq, ht, tryCatchAll_ok_apply _ _ _ _ _ hbody]

/-- Witness for C8: requesting 15 seconds sleeps and reports 10. -/
theorem execute_action_wait_clamped_witness :
    execute_action execBlank [] (.dict [("type", .str "wait"), ("seconds", .int 15)]) =
      .ok (resOk "已等待 10 秒", [.sleep (.int 10)]) :=
  execute_action_wait_clamped execBlank [] _ 15 rfl rfl

/-- The eighteen recognized action types, in dispatch order. -/
def recognizedActionTypes : List String :=
  ["goto", "back", "forward", "refresh", "wait", "click", "fill", "type", "clear",
   "select", "check", "uncheck", "hover", "focus", "scrollTo", "press", "scroll", "done"]

/-- C9: an action whose type string is not one of the recognized variants
returns the failure result 未知操作: type (unknown action) rather than
raising an unhandled fault. -/
theorem execute_action_unknown_type (env : ExecEnv) (els : List PyVal)
    (kvs : List (String × PyVal)) (t : String)
    (ht : pvGetD (.dict kvs) "type" .none = .str t)
    (hmem : t ∉ recognizedActionTypes) :
    execute_action env els (.dict kvs) = .ok (resFail ("未知操作: " ++ t), []) := by
  simp only [recognizedActionTypes, List.mem_cons, List.not_mem_nil, or_false, not_or] at hmem
  obtain ⟨g1, g2, g3, g4, g5, g6, g7, g8, g9, g10, g11, g12, g13, g14, g15, g16, g17, g18⟩ := hmem
  have hbody : execute_body env els (.dict kvs) (.str t)
      (pvGetD (.dict kvs) "index" .none) (pvGetD (.dict kvs) "value" (.str "")) [] =
      ERes.ok (resFail ("未知操作: " ++ t)) [] := by
    unfold execute_body
    simp [pyBeq, g1, g2, g3, g4, g5, g6, g7, g8, g9, g10, g11, g12, g13, g14, g15, g16,
      g17, g18, pyStrOf]
    rfl
  rw [execute_action_eq, ht, tryCatchAll_ok_apply _ _ _ _ _ hbody]

/-- Witness for C9: an unrecognized type yields the unknown-action failure. -/
theorem execute_action_unknown_type_witness :
    execute_action execBlank [] (.dict [("type", .str "frobnicate")]) =
      .ok (resFail "未知操作: frobnicate", []) :=
  execute_action_unknown_type execBlank [] _ "frobnicate" rfl (by decide)

/-- C10: an element-targeted action whose index field is missing or a
string still returns a failure result without crashing: the comparison
raises inside the executor, the top-level handler catches it, and the
message is the generic 操作失败 (operation failed) text rather than the
element-missing message. -/
theorem execute_action_bad_index (env : ExecEnv) (els : List PyVal)
    (kvs : List (String × PyVal)) (t : String)
    (ht : pvGetD (.dict kvs) "type" .none = .str t)
    (hmem : t ∈ elementActionTypes)
    (hbad : pvGetD (.dict kvs) "index" .none = .none ∨
            ∃ s, pvGetD (.dict kvs) "index" .none = .str s) :
    execute_action env els (.dict kvs) =
      .ok (resFail ("操作失败: " ++
        strTake (cmpErrMsg "<" (pvGetD (.dict kvs) "index" .none) (.int 1)) 100), []) := by
  have hnum : pyToNum (pvGetD (.dict kvs) "index" .none) = Option.none := by
    rcases hbad with hb | ⟨s, hb⟩ <;> rw [hb] <;> rfl
  rw [execute_action_eq, ht,
      tryCatchAll_err_apply _ _ _ _ _
        (execute_body_elem_badidx env els (.dict kvs) (pvGetD (.dict kvs) "value" (.str ""))
          (pvGetD (.dict kvs) "index" .none) t hmem hnum []),
      catchHandler_typeError]

/-- Witness for C10: a click without an index field fails with the generic
operation-failure message naming the comparison TypeError. -/
theorem execute_action_bad_index_witness :
    execute_action execBlank [] (.dict [("type", .str "click")]) =
      .ok (resFail "操作失败: < not supported between instances of NoneType and int", []) :=
  execute_action_bad_index execBlank [] _ "click" rfl (by decide) (Or.inl rfl)

/-! ### The done flag and crash-freedom of the executor on dict actions -/

/-- Every normal result of the computation has the done flag unset. -/
def NoDoneM (m : ExecM ActionResult) : Prop :=
  ∀ ops res ops2, m ops = .ok res ops2 → res.done = false

theorem noDone_pure (r : ActionResult) (h : r.done = false) : NoDoneM (pure r) := by
  intro ops res ops2 hm
  have h2 : ERes.ok r ops = ERes.ok res ops2 := hm
  injection h2 with h3 h4
  exact h3 ▸ h

theorem noDone_bind {α : Type} (x : ExecM α) (k : α → ExecM ActionResult)
    (hk : ∀ a, NoDoneM (k a)) : NoDoneM (x >>= k) := by
  intro ops res ops2 hm
  rw [ExecM.bind_apply] at hm
  cases hx : x ops with
  | ok a o =>
    rw [hx] at hm
    exact hk a o res ops2 hm
  | err e o =>
    rw [hx] at hm
    exact ERes.noConfusion hm

theorem noDone_ite (p : Prop) [Decidable p] (x y : ExecM ActionResult)
    (hx : NoDoneM x) (hy : NoDoneM y) : NoDoneM (if p then x else y) := by
  by_cases hp : p
  · rw [if_pos hp]; exact hx
  · rw [if_neg hp]; exact hy

theorem noDone_tryCatchAll (x : ExecM ActionResult) (h : PyErr → ExecM ActionResult)
    (hx : NoDoneM x) (hh : ∀ e, NoDoneM (h e)) : NoDoneM (tryCatchAll x h) := by
  intro ops res ops2 hm
  unfold tryCatchAll at hm
  cases hxo : x ops with
  | ok a o =>
    rw [hxo] at hm
    injection hm with h2 h3
    exact h2 ▸ hx ops a o hxo
  | err e o =>
    rw [hxo] at hm
    exact hh e o res ops2 hm

theorem noDone_withLocator (env : ExecEnv) (els : List PyVal) (idx : PyVal)
    (k : PyVal → ExecM ActionResult) (hk : ∀ sel, NoDoneM (k sel)) :
    NoDoneM (withLocator env els idx k) := by
  unfold withLocator
  apply noDone_bind
  intro loc
  cases loc with
  | none => exact noDone_pure _ rfl
  | some sel => exact hk sel

theorem noDone_safe_goto (env : ExecEnv) (url : PyVal) : NoDoneM (safe_goto env url) := by
  unfold safe_goto
  apply noDone_tryCatchAll
  · apply noDone_bind; intro _
    apply noDone_bind; intro _
    apply noDone_bind; intro _
    exact noDone_pure _ rfl
  · intro e
    cases e with
    | playwrightTimeout =>
      apply noDone_bind; intro _
      apply noDone_bind; intro _
      exact noDone_pure _ rfl
    | typeError m => exact noDone_pure _ rfl
    | valueError m => exact noDone_pure _ rfl
    | jsonDecodeError m => exact noDone_pure _ rfl
    | attributeError m => exact noDone_pure _ rfl
    | unboundLocal n => exact noDone_pure _ rfl
    | exn m => exact noDone_pure _ rfl

theorem noDone_catchHandler (atype : PyVal) (e : PyErr) : NoDoneM (catchHandler atype e) := by
  unfold catchHandler
  cases e <;> exact noDone_pure _ rfl

/-- Only the done dispatch branch can set the done flag. -/
theorem noDone_execute_body (env : ExecEnv) (els : List PyVal)
    (a atype index value : PyVal) (hne : pyBeq atype (.str "done") = false) :
    NoDoneM (execute_body env els a atype index value) := by
  unfold execute_body
  rw [hne]
  rw [if_neg (show ¬ (false = true) by simp)]
  all_goals repeat'
    first
    | exact noDone_pure _ rfl
    | exact noDone_safe_goto _ _
    | (apply noDone_withLocator; intro _)
    | (apply noDone_bind; intro _)
    | apply noDone_ite

theorem pyBeq_str_eq (v : PyVal) (s : String) (h : pyBeq v (.str s) = true) : v = .str s := by
  cases v <;> simp [pyBeq] at h ⊢
  exact h

/-- The executor never raises on a dict action: the pre-try field reads
succeed and everything else is caught. -/
theorem execute_action_dict_ok (env : ExecEnv) (els : List PyVal)
    (kvs : List (String × PyVal)) :
    ∃ res ops, execute_action env els (.dict kvs) = .ok (res, ops) := by
  rw [execute_action_eq]
  cases hc : (tryCatchAll (execute_body env els (.dict kvs)
      (pvGetD (.dict kvs) "type" .none) (pvGetD (.dict kvs) "index" .none)
      (pvGetD (.dict kvs) "value" (.str "")))
    (catchHandler (pvGetD (.dict kvs) "type" .none))) [] with
  | ok r o => exact ⟨r, o, rfl⟩
  | err e o => exact ⟨_, o, rfl⟩

/-- A dict action whose type is not the done string never reports done. -/
theorem execute_action_done_flag (env : ExecEnv) (els : List PyVal)
    (kvs : List (String × PyVal)) (res : ActionResult) (ops : List BrowserOp)
    (hne : pvGetD (.dict kvs) "type" .none ≠ .str "done")
    (hexec : execute_action env els (.dict kvs) = .ok (res, ops)) :
    res.done = false := by
  have hb : pyBeq (pvGetD (.dict kvs) "type" .none) (.str "done") = false := by
    cases hpb : pyBeq (pvGetD (.dict kvs) "type" .none) (.str "done")
    · rfl
    · exact absurd (pyBeq_str_eq _ _ hpb) hne
  rw [execute_action_eq] at hexec
  cases hc : (tryCatchAll (execute_body env els (.dict kvs)
      (pvGetD (.dict kvs) "type" .none) (pvGetD (.dict kvs) "index" .none)
      (pvGetD (.dict kvs) "value" (.str "")))
    (catchHandler (pvGetD (.dict kvs) "type" .none))) [] with
  | ok r o =>
    rw [hc] at hexec
    have h2 : (r, o) = (res, ops) := by
      have h3 : Except.ok (ε := PyErr) (r, o) = Except.ok (res, ops) := hexec
      cases h3
      rfl
    have h4 : r = res := congrArg Prod.fst h2
    subst h4
    exact noDone_tryCatchAll _ _
      (noDone_execute_body env els _ _ _ _ hb) (noDone_catchHandler _) [] r o hc
  | err e o =>
    rw [hc] at hexec
    have h3 : Except.ok (ε := PyErr)
        (resFail ("操作失败: " ++ strTake (errStr e) 100), o) = Except.ok (res, ops) := hexec
    cases h3
    rfl

/-! ### Reductions of the loop phases -/

theorem exceptOkBind {α β : Type} (a : α) (f : α → Except PyErr β) :
    (Except.ok a >>= f : Except PyErr β) = f a := rfl

theorem exceptErrBind {α β : Type} (e : PyErr) (f : α → Except PyErr β) :
    (Except.error e >>= f : Except PyErr β) = .error e := rfl

/-- A successful pass through the try-block reads forces the action value
to be the action field of the reply and a dict (the display read of its
type succeeded). -/
theorem post_parse_reads_ok (kvs : List (String × PyVal)) (action : PyVal)
    (h : post_parse_reads (.dict kvs) = .ok action) :
    action = pvGetD (.dict kvs) "action" (.dict []) ∧ isDict action = true := by
  unfold post_parse_reads at h
  rw [pyGetD_of_dict, pyGetD_of_dict] at h
  rw [exceptOkBind, exceptOkBind] at h
  cases hsl : pySlice (pvGetD (.dict kvs) "thought" (.str "")) 70 with
  | error e =>
    rw [hsl, exceptErrBind] at h
    exact Except.noConfusion h
  | ok sl =>
    rw [hsl, exceptOkBind] at h
    cases hva : pvGetD (.dict kvs) "action" (.dict []) with
    | dict kvs2 =>
      rw [hva, pyGetD_of_dict, exceptOkBind] at h
      have h2 : Except.ok (ε := PyErr) (PyVal.dict kvs2) = Except.ok action := h
      cases h2
      exact ⟨rfl, rfl⟩
    | none => rw [hva] at h; exact Except.noConfusion h
    | bool b => rw [hva] at h; exact Except.noConfusion h
    | int n => rw [hva] at h; exact Except.noConfusion h
    | str s2 => rw [hva] at h; exact Except.noConfusion h
    | list xs => rw [hva] at h; exact Except.noConfusion h

theorem repair_branch_dict (msgs1 : List Msg) (hashes2 : List String)
    (cache2 : AgentCache) (kvs : List (String × PyVal)) :
    ∃ st2, repair_branch msgs1 hashes2 cache2 (some (.dict kvs)) = .next st2 ∧
      st2.respVar = some (.dict kvs) := by
  simp only [repair_branch]
  rw [pyGetD_of_dict]
  exact ⟨_, rfl, rfl⟩

theorem step_decide_err (inp : StepInput) (msgs1 : List Msg) (hashes2 : List String)
    (cache2 : AgentCache) (respVar : Option PyVal) (e : PyErr)
    (hparse : call_llm inp.llm = .error e) :
    step_decide inp msgs1 hashes2 cache2 respVar =
      repair_branch msgs1 hashes2 cache2 respVar := by
  unfold step_decide
  rw [hparse]

theorem step_decide_okv (inp : StepInput) (msgs1 : List Msg) (hashes2 : List String)
    (cache2 : AgentCache) (respVar : Option PyVal) (d : PyVal)
    (hparse : call_llm inp.llm = .ok d) :
    step_decide inp msgs1 hashes2 cache2 respVar =
      step_act inp msgs1 hashes2 cache2 d := by
  unfold step_decide
  rw [hparse]

theorem step_act_reads_err (inp : StepInput) (msgs1 : List Msg) (hashes2 : List String)
    (cache2 : AgentCache) (d : PyVal) (e : PyErr)
    (hpp : post_parse_reads d = .error e) :
    step_act inp msgs1 hashes2 cache2 d = repair_branch msgs1 hashes2 cache2 (some d) := by
  unfold step_act
  rw [hpp]

theorem step_act_reads_okv (inp : StepInput) (msgs1 : List Msg) (hashes2 : List String)
    (cache2 : AgentCache) (d action : PyVal)
    (hpp : post_parse_reads d = .ok action) :
    step_act inp msgs1 hashes2 cache2 d =
      step_exec inp (msgs1 ++ [{role := "assistant", content := .assistantJson d}])
        hashes2 cache2 d action := by
  unfold step_act
  rw [hpp]

theorem step_exec_no_done (inp : StepInput) (msgs2 : List Msg) (hashes2 : List String)
    (cache2 : AgentCache) (d action : PyVal) (res : ActionResult) (ops : List BrowserOp)
    (hex : execute_action inp.exec cache2.current_elements action = .ok (res, ops))
    (hdone : res.done = false) :
    step_exec inp msgs2 hashes2 cache2 d action =
      .next {messages := msgs2 ++ [{role := "user", content := .text (result_message res)}],
             hashes := hashes2, cache := cache2, respVar := some d} := by
  unfold step_exec
  rw [hex]
  dsimp only
  rw [if_neg (by rw [hdone]; simp)]

/-- An accepted dict reply whose action type is not done always advances
the loop, binding the response variable to the reply. -/
theorem step_run_ok_dict (inp : StepInput) (task : String) (stepn : Nat) (st : LoopState)
    (kvs : List (String × PyVal))
    (hparse : call_llm inp.llm = .ok (.dict kvs))
    (hdone : pvGetD (pvGetD (.dict kvs) "action" (.dict [])) "type" .none ≠ .str "done") :
    ∃ st2, step_run inp task stepn st = .next st2 ∧ st2.respVar = some (.dict kvs) := by
  unfold step_run
  rw [step_decide_okv _ _ _ _ _ _ hparse]
  cases hpp : post_parse_reads (.dict kvs) with
  | error e =>
    rw [step_act_reads_err _ _ _ _ _ _ hpp]
    exact repair_branch_dict _ _ _ kvs
  | ok action =>
    obtain ⟨haq, hdict⟩ := post_parse_reads_ok kvs action hpp
    rw [step_act_reads_okv _ _ _ _ _ _ hpp]
    obtain ⟨kvs2, hk2⟩ : ∃ kvs2, action = PyVal.dict kvs2 := by
      cases action <;> first | exact ⟨_, rfl⟩ | simp [isDict] at hdict
    subst hk2
    obtain ⟨res, ops, hex⟩ := execute_action_dict_ok inp.exec
      (get_page_state inp.cap st.cache).2.current_elements kvs2
    have hne : pvGetD (.dict kvs2) "type" .none ≠ .str "done" := by
      rw [haq]
      exact hdone
    have hflag : res.done = false :=
      execute_action_done_flag _ _ kvs2 res ops hne hex
    rw [step_exec_no_done _ _ _ _ _ _ res ops hex hflag]
    exact ⟨_, rfl, rfl⟩

/-- A malformed reply after some completed model call advances the loop,
leaving the response variable unchanged. -/
theorem step_run_malformed (inp : StepInput) (task : String) (stepn : Nat) (st : LoopState)
    (kvs : List (String × PyVal)) (e : PyErr)
    (hparse : call_llm inp.llm = .error e)
    (hrv : st.respVar = some (.dict kvs)) :
    ∃ st2, step_run inp task stepn st = .next st2 ∧ st2.respVar = some (.dict kvs) := by
  unfold step_run
  rw [step_decide_err _ _ _ _ _ _ hparse, hrv]
  exact repair_branch_dict _ _ _ kvs

/-! ### Budget exhaustion and the first-step repair crash -/

/-- Generalized budget-exhaustion induction: from any loop position whose
response variable either holds a decoded dict or is unbound with no prior
accepted reply, a run whose replies never carry a done action and whose
failures all follow an accepted reply uses its whole remaining budget. -/
theorem run_aux_exhausts (inputs : Nat → StepInput) (task : String) (maxSteps : Nat)
    (Hok : ∀ n, 1 ≤ n → n ≤ maxSteps → ∀ d, call_llm (inputs n).llm = .ok d →
      isDict d = true)
    (Hdone : ∀ n, 1 ≤ n → n ≤ maxSteps → ∀ d, call_llm (inputs n).llm = .ok d →
      pvGetD (pvGetD d "action" (.dict [])) "type" .none ≠ .str "done")
    (Hfatal : ∀ n, 1 ≤ n → n ≤ maxSteps → ∀ e, call_llm (inputs n).llm = .error e →
      ∃ m d, 1 ≤ m ∧ m < n ∧ call_llm (inputs m).llm = .ok d) :
    ∀ fuel stepNo st, 1 ≤ stepNo → stepNo + fuel = maxSteps + 1 →
      ((∃ kvs, st.respVar = some (.dict kvs)) ∨
        (∀ m d, 1 ≤ m → m < stepNo → call_llm (inputs m).llm ≠ .ok d)) →
      run_aux inputs task maxSteps fuel stepNo st =
        {outcome := .exhausted ("Max steps reached (" ++ toString maxSteps ++ ")"),
         steps := fuel} := by
  intro fuel
  induction fuel with
  | zero => intro stepNo st _ _ _; rfl
  | succ f ih =>
    intro stepNo st hstep1 hsum hinv
    have hstepM : stepNo ≤ maxSteps := by omega
    have hrun : ∃ st2, step_run (inputs stepNo) task stepNo st = .next st2 ∧
        ((∃ kvs, st2.respVar = some (.dict kvs)) ∨
          (∀ m d, 1 ≤ m → m < stepNo + 1 → call_llm (inputs m).llm ≠ .ok d)) := by
      cases hparse : call_llm (inputs stepNo).llm with
      | ok d =>
        have hD := Hok stepNo hstep1 hstepM d hparse
        obtain ⟨kvs, rfl⟩ : ∃ kvs, d = PyVal.dict kvs := by
          cases d <;> first | exact ⟨_, rfl⟩ | simp [isDict] at hD
        obtain ⟨st2, hnext, hrv⟩ := step_run_ok_dict (inputs stepNo) task stepNo st kvs
          hparse (Hdone stepNo hstep1 hstepM _ hparse)
        exact ⟨st2, hnext, Or.inl ⟨kvs, hrv⟩⟩
      | error e =>
        rcases hinv with ⟨kvs, hrv⟩ | hnone
        · obtain ⟨st2, hnext, hrv2⟩ :=
            step_run_malformed (inputs stepNo) task stepNo st kvs e hparse hrv
          exact ⟨st2, hnext, Or.inl ⟨kvs, hrv2⟩⟩
        · obtain ⟨m, d, hm1, hmlt, hok⟩ := Hfatal stepNo hstep1 hstepM e hparse
          exact absurd hok (hnone m d hm1 hmlt)
    obtain ⟨st2, hnext, hinv2⟩ := hrun
    simp only [run_aux]
    rw [hnext]
    dsimp only
    rw [ih (stepNo + 1) st2 (by omega) (by omega) hinv2]

/-- Concrete loop inputs whose model reply is unparseable text. -/
def malformedInputs : Nat → StepInput :=
  fun _ => {cap := captureFailEnv, llm := .ok "hello", exec := execBlank}

/-- C2 (the code as it stands): when the very first model reply fails to
decode, the repair branch reads the local variable response, which no
completed model call has bound yet, so the run crashes after one step with
UnboundLocalError instead of appending the malformed reply plus the
corrective instruction and continuing. -/
theorem run_first_step_malformed_crashes :
    run malformedInputs "task" 1 =
      {outcome := .crashed (.unboundLocal "response"), steps := 1} := rfl

/-- C6: when every reply decodes to a dict whose action type is not done
(so the model never emits a done action) and every decode failure follows
some accepted reply (so no fatal fault occurs), the loop executes exactly
the configured number of steps and returns the budget-exceeded message. -/
theorem run_budget_exhaustion (inputs : Nat → StepInput) (task : String) (maxSteps : Nat)
    (Hok : ∀ n, 1 ≤ n → n ≤ maxSteps → ∀ d, call_llm (inputs n).llm = .ok d →
      isDict d = true)
    (Hdone : ∀ n, 1 ≤ n → n ≤ maxSteps → ∀ d, call_llm (inputs n).llm = .ok d →
      pvGetD (pvGetD d "action" (.dict [])) "type" .none ≠ .str "done")
    (Hfatal : ∀ n, 1 ≤ n → n ≤ maxSteps → ∀ e, call_llm (inputs n).llm = .error e →
      ∃ m d, 1 ≤ m ∧ m < n ∧ call_llm (inputs m).llm = .ok d) :
    run inputs task maxSteps =
      {outcome := .exhausted ("Max steps reached (" ++ toString maxSteps ++ ")"),
       steps := maxSteps} := by
  unfold run
  exact run_aux_exhausts inputs task maxSteps Hok Hdone Hfatal maxSteps 1 initLoopState
    (by omega) (by omega) (Or.inr (by intro m d hm1 hmlt; omega))

/-- A well-formed non-done reply. -/
def waitReply : String := "\x7b\"thought\": \"t\", \"action\": \x7b\"type\": \"wait\"\x7d\x7d"

/-- Concrete loop inputs whose model reply is always a wait action. -/
def waitInputs : Nat → StepInput :=
  fun _ => {cap := captureFailEnv, llm := .ok waitReply, exec := execBlank}

/-- Witness for C6: with budget 2 and a model that always answers a wait
action, the run uses exactly 2 steps and reports the exceeded budget. -/
theorem run_budget_exhaustion_witness :
    run waitInputs "t" 2 =
      {outcome := .exhausted "Max steps reached (2)", steps := 2} := by
  have hparse : ∀ n, call_llm (waitInputs n).llm =
      .ok (.dict [("thought", .str "t"), ("action", .dict [("type", .str "wait")])]) :=
    fun _ => rfl
  refine run_budget_exhaustion waitInputs "t" 2 ?_ ?_ ?_
  · intro n _ _ d hd
    rw [hparse n] at hd
    cases hd
    rfl
  · intro n _ _ d hd
    rw [hparse n] at hd
    cases hd
    intro hcon
    have h2 : PyVal.str "wait" = PyVal.str "done" := hcon
    simp at h2
  · intro n _ _ e he
    rw [hparse n] at he
    exact Except.noConfusion he

end Browser4Zero
